import Mathlib

/-!
# Verification of the culinary-agents scraper's company/contact resolution engine

This file gives a shallow embedding, in Lean 4, of the pure core of the
scraper's Company Name & Contact Resolution Engine: the text normalizer
(cleanSpecialCharacters), the company-name parser (parseCompanyAndLocation),
the title priority scorer (getTitlePriority), the contact scorer
(calculateEmailScore / processEmails), the enrichment client's control flow
(getCompanyInfoWithSource, with the HTTP API modelled as an oracle), and the
orchestrator's merge step (getCompanyInfo), together with theorems that settle
the specification claims about them.

JavaScript strings are modelled as Lean Strings (lists of characters);
JavaScript regular expressions are translated operation-by-operation into
dedicated matching/replacement functions whose doc comments quote the exact
source regex they implement.  Case conversion is modelled for ASCII letters
(every string constant actually consumed by the engine is ASCII).  Wall-clock
timestamps and log output are not modelled; neither is the in-memory cache,
which is dead code in this build (the source sets DISABLE_COMPANY_CACHE = true,
so every cache read/write is skipped).
-/

namespace CulinaryScraper

/-! ## JavaScript string primitives (character level) -/

/-- Characters matched by the JavaScript regex class `\w`:
ASCII letters, ASCII digits and the underscore. -/
def wordChar (c : Char) : Bool :=
  ('a' ≤ c && c ≤ 'z') || ('A' ≤ c && c ≤ 'Z') || ('0' ≤ c && c ≤ '9') || c == '_'

/-- ASCII letters (what the class `[a-z]` or `[A-Z]` matches under the `i` flag). -/
def asciiLetter (c : Char) : Bool :=
  ('a' ≤ c && c ≤ 'z') || ('A' ≤ c && c ≤ 'Z')

/-- ASCII alphanumeric characters. -/
def asciiAlphanum (c : Char) : Bool :=
  asciiLetter c || ('0' ≤ c && c ≤ '9')

/-- Characters matched by the JavaScript regex class `\s` (also the set removed
by `String.prototype.trim`): ASCII whitespace, NBSP, BOM, and the Unicode
space separators and line terminators. -/
def jsWs (c : Char) : Bool :=
  c == ' ' || c == '\t' || c == '\n' || c == '\r' ||
  c.toNat == 0x0B || c.toNat == 0x0C ||
  c.toNat == 0xA0 || c.toNat == 0x1680 ||
  (0x2000 ≤ c.toNat && c.toNat ≤ 0x200A) ||
  c.toNat == 0x2028 || c.toNat == 0x2029 ||
  c.toNat == 0x202F || c.toNat == 0x205F ||
  c.toNat == 0x3000 || c.toNat == 0xFEFF

/-- Characters matched by the JavaScript regex `.` (any character except a
line terminator). -/
def dotChar (c : Char) : Bool :=
  !(c == '\n' || c == '\r' || c.toNat == 0x2028 || c.toNat == 0x2029)

/-- ASCII lower-casing of one character (model of `String.prototype.toLowerCase`
on the ASCII strings this engine manipulates). -/
def lcChar (c : Char) : Char :=
  if 'A' ≤ c && c ≤ 'Z' then Char.ofNat (c.toNat + 32) else c

/-- Model of `s.toLowerCase()`. -/
def jsLower (s : String) : String := ⟨s.data.map lcChar⟩

/-- Is `p` a (case-sensitive) prefix of `s`? -/
def isPrefixL : List Char → List Char → Bool
  | [], _ => true
  | _ :: _, [] => false
  | p :: ps, c :: cs => p == c && isPrefixL ps cs

/-- Case-insensitive ASCII prefix test. -/
def ciPrefixL (p s : List Char) : Bool := isPrefixL (p.map lcChar) (s.map lcChar)

/-- Model of `hay.includes(needle)` (case-sensitive substring test). -/
def containsSubL (hay needle : List Char) : Bool :=
  match hay with
  | [] => needle.isEmpty
  | _ :: t => isPrefixL needle hay || containsSubL t needle

/-- Model of `hay.indexOf(needle)`: index of the first occurrence. -/
def idxOfSubL (hay needle : List Char) : Option Nat :=
  match hay with
  | [] => if needle.isEmpty then some 0 else none
  | _ :: t =>
    if isPrefixL needle hay then some 0
    else (idxOfSubL t needle).map (· + 1)

/-- Model of `hay.includes(needle)` on Strings. -/
def containsSub (hay needle : String) : Bool := containsSubL hay.data needle.data

/-- Model of `hay.indexOf(needle)` on Strings (`none` in place of `-1`). -/
def idxOfSub (hay needle : String) : Option Nat := idxOfSubL hay.data needle.data

/-- Model of `hay.indexOf(needle, from)`: first occurrence at index ≥ `start`. -/
def idxOfSubFrom (hay needle : String) (start : Nat) : Option Nat :=
  (idxOfSubL (hay.data.drop start) needle.data).map (· + start)

/-- Model of `s.startsWith(p)`. -/
def jsStartsWith (s p : String) : Bool := isPrefixL p.data s.data

/-- Model of `s.endsWith(p)`. -/
def jsEndsWith (s p : String) : Bool := isPrefixL p.data.reverse s.data.reverse

/-- Model of `s.trim()` (strip `jsWs` characters from both ends). -/
def jsTrim (s : String) : String :=
  ⟨((s.data.dropWhile jsWs).reverse.dropWhile jsWs).reverse⟩

/-- Model of `s.replace(/\s+/g, '')` (remove every whitespace character). -/
def removeWs (s : String) : String := ⟨s.data.filter (fun c => !jsWs c)⟩

/-- Model of `s.substring(a, b)` for `a ≤ b` (the only way it is called here). -/
def substr (s : String) (a b : Nat) : String := ⟨(s.data.take b).drop a⟩

/-- Model of `s.substring(a)`. -/
def substrFrom (s : String) (a : Nat) : String := ⟨s.data.drop a⟩

/-- Model of `s.lastIndexOf(c)` for a single-character needle. -/
def lastIdxOfChar (s : String) (c : Char) : Option Nat :=
  (idxOfSubL s.data.reverse [c]).map (fun i => s.data.length - 1 - i)

/-- Model of `s.split(sep)` for a one-character separator (as in `split(' ')`
and `split('•')`). -/
def splitChar (sep : Char) (s : List Char) : List (List Char) :=
  match s with
  | [] => [[]]
  | c :: cs =>
    let rest := splitChar sep cs
    if c == sep then [] :: rest
    else
      match rest with
      | [] => [[c]]
      | r :: rs => (c :: r) :: rs

/-- Helper for `jsSplitWs`: accumulates the current token (reversed); the
flag records whether we are inside a separator run whose field was already
emitted.  (Structural recursion, so that proofs can evaluate it.) -/
def jsSplitWsGo : List Char → List Char → Bool → List (List Char)
  | [], cur, skipping => if skipping then [[]] else [cur.reverse]
  | c :: rest, cur, skipping =>
    if jsWs c then
      if skipping then jsSplitWsGo rest [] true
      else cur.reverse :: jsSplitWsGo rest [] true
    else jsSplitWsGo rest (c :: cur) false

/-- Model of `s.split(/\s+/)`: split on maximal whitespace runs, with an empty
leading (trailing) field when the string starts (ends) with whitespace. -/
def jsSplitWs (s : String) : List String :=
  (jsSplitWsGo s.data [] false).map (⟨·⟩)

/-- Fuel-indexed worker for `splitSepL` (each step consumes at least one
character, so fuel `s.length` is enough; structural recursion on the fuel). -/
def splitSepGo (sep : List Char) : Nat → List Char → List (List Char)
  | _, [] => [[]]
  | 0, s => [s]
  | f + 1, c :: cs =>
    if isPrefixL sep (c :: cs) then
      [] :: splitSepGo sep f (cs.drop (sep.length - 1))
    else
      match splitSepGo sep f cs with
      | [] => [[c]]
      | r :: rs => (c :: r) :: rs

/-- Model of `s.split(sep)` for a multi-character separator string
(as in `split('; ')`); `sep` is assumed nonempty. -/
def splitSepL (sep : List Char) (s : List Char) : List (List Char) :=
  splitSepGo sep s.length s

/-- Model of `s.split(sep)` on Strings. -/
def jsSplitSep (s sep : String) : List String :=
  (splitSepL sep.data s.data).map (⟨·⟩)

/-- Model of the JavaScript `a || b` idiom on strings (empty string is falsy). -/
def jsOrS (a b : String) : String := if a == "" then b else a

/-- First `some` value of `f` over a list (the shape of every
first-match-wins loop in the source). -/
def firstSome {α β : Type} (f : α → Option β) : List α → Option β
  | [] => none
  | x :: xs =>
    match f x with
    | some y => some y
    | none => firstSome f xs

/-! ## Dedicated matchers for the individual regular expressions of the source

Location names are spliced into `new RegExp(...)` without escaping, so inside
such a pattern a literal `.` (as in `St. Louis`) is the regex wildcard; the
combinator `matchPatAt` therefore treats `.` as matching any character and all
other characters case-insensitively (the patterns are built with the `i` flag).
-/

/-- Does pattern character `p` match text character `c` under the `i` flag,
with `.` as wildcard? -/
def patCharMatches (p c : Char) : Bool := p == '.' || lcChar p == lcChar c

/-- Does the interpolated pattern `pat` match at the head of `s`? -/
def matchPatAt : List Char → List Char → Bool
  | [], _ => true
  | _ :: _, [] => false
  | p :: ps, c :: cs => patCharMatches p c && matchPatAt ps cs

/-- First index `i` such that `s[i]` is a letter and `loc` matches at `i+1`:
the match index of `new RegExp(`([a-z])${location}`, 'i')` (step 2.5 of the
parser).  Under the `i` flag `[a-z]` matches any ASCII letter. -/
def cityPatIdx (loc : List Char) : List Char → Option Nat
  | [] => none
  | c :: cs =>
    if asciiLetter c && matchPatAt loc cs then some 0
    else (cityPatIdx loc cs).map (· + 1)

/-- Replacement `namePart.replace(cityPattern, `$1 ${location}`)` for the first
match of the step-2.5 city pattern (no `g` flag: one replacement). -/
def cityPatReplace (loc : String) (s : String) : String :=
  match cityPatIdx loc.data s.data with
  | none => s
  | some i =>
    ⟨s.data.take (i + 1) ++ ' ' :: loc.data ++ s.data.drop (i + 1 + loc.length)⟩

/-- First index of a match of `new RegExp(`Hour${location}`, 'i')`. -/
def hourLocIdx (loc : List Char) : List Char → Option Nat
  | [] => none
  | c :: cs =>
    if matchPatAt ('H' :: 'o' :: 'u' :: 'r' :: loc) (c :: cs) then some 0
    else (hourLocIdx loc cs).map (· + 1)

/-- Replacement `namePart.replace(new RegExp(`Hour${location}`, 'i'),
`Hour ${location}`)` (first match only). -/
def hourLocReplace (loc : String) (s : String) : String :=
  match hourLocIdx loc.data s.data with
  | none => s
  | some i =>
    ⟨s.data.take i ++ ("Hour " ++ loc).data ++ s.data.drop (i + 4 + loc.length)⟩

/-- Does `new RegExp(`Hour${location}`, 'i')` match somewhere in `s`
(the `namePart.match(...)` test of step 2.5)? -/
def hourLocTest (loc : String) (s : String) : Bool := (hourLocIdx loc.data s.data).isSome

/-- The venue-word alternatives of the step-2.5b word-boundary pattern
`/(\b(?:hour|room|cafe|bar|club|bistro|grill|tap|lounge|den|pub|inn|shop|house|bakery))([A-Z][a-z]+)/i`. -/
def wbKeywords : List String :=
  ["hour", "room", "cafe", "bar", "club", "bistro", "grill", "tap", "lounge",
   "den", "pub", "inn", "shop", "house", "bakery"]

/-- At a position whose remaining text is `s` (with `boundary` saying whether a
word boundary precedes it), find the keyword of `wbKeywords` matched by the
step-2.5b pattern, requiring at least two following letters (`[A-Z][a-z]+`
under the `i` flag).  Returns the number of characters up to the end of the
keyword, i.e. the insertion point for the replacement `'$1 $2'`. -/
def wbMatchHere (s : List Char) : Option Nat :=
  (wbKeywords.find? (fun kw =>
    ciPrefixL kw.data s &&
    (match s.drop kw.length with
     | c1 :: c2 :: _ => asciiLetter c1 && asciiLetter c2
     | _ => false))).map (·.length)

/-- Leftmost match position of the step-2.5b pattern: scans positions left to
right, requiring a word boundary (start of string or a preceding non-word
character).  Returns the insertion point for the space. -/
def wbFindIdx : List Char → Bool → Nat → Option Nat
  | [], _, _ => none
  | c :: cs, boundary, pos =>
    match (if boundary then wbMatchHere (c :: cs) else none) with
    | some k => some (pos + k)
    | none => wbFindIdx cs (!wordChar c) (pos + 1)

/-- Replacement `namePart.replace(wordBoundaryPattern, '$1 $2')`: insert a
single space after the matched venue word (first match only; `$1` and `$2`
are the original, untouched text, so only the space is new). -/
def wordBoundaryFix (s : String) : String :=
  match wbFindIdx s.data true 0 with
  | none => s
  | some k => ⟨s.data.take k ++ ' ' :: s.data.drop k⟩

/-- Fuel-indexed worker for `matchWsWordsEnd` (each word consumes at least one
whitespace character, so fuel `s.length` is enough). -/
def mwweGo : Nat → List String → List Char → Bool
  | _, [], s => s.isEmpty
  | 0, _ :: _, _ => false
  | f + 1, w :: ws, s =>
    let r := s.dropWhile jsWs
    decide (r.length < s.length) && ciPrefixL w.data r &&
      mwweGo f ws (r.drop w.length)

/-- Match of the tail `\s+W₁\s+W₂...\s+Wₙ$` (case-insensitive literal words
separated by runs of whitespace, anchored at the end). -/
def matchWsWordsEnd (words : List String) (s : List Char) : Bool :=
  mwweGo s.length words s

/-- Match of a full pattern `^C+\s+W₁\s+W₂$` where `C` is a character class:
at least one leading class character, then the whitespace-separated word tail.
Implements the four all-caps group patterns of parser step 3 (class
`[A-Z\s.'&]` under the `i` flag) and, with `C = dotChar`, the seven
`/^(.+\s+)word₁\s+word₂$/i` "excluded ending" patterns. -/
def classThenWsWords (cls : Char → Bool) (words : List String) : List Char → Bool
  | [] => false
  | c :: cs => cls c && (matchWsWordsEnd words cs || classThenWsWords cls words cs)

/-- Character class `[A-Z\s.'&]` of the all-caps patterns (under the `i` flag
it matches any ASCII letter, whitespace, `.`, `'` or `&`). -/
def allCapsCls (c : Char) : Bool :=
  asciiLetter c || jsWs c || c == '.' || c == '\'' || c == '&'

/-- Test of `/Group\s*NYC\b/i` at one position. -/
def groupNycAt (s : List Char) : Bool :=
  ciPrefixL "group".data s &&
    (let r := (s.drop 5).dropWhile jsWs
     ciPrefixL "nyc".data r &&
       (match r.drop 3 with
        | [] => true
        | c :: _ => !wordChar c))

/-- Model of `namePart.match(/Group\s*NYC\b/i)` as a Boolean test. -/
def groupNycTest (s : String) : Bool :=
  (List.range s.data.length).any (fun i => groupNycAt (s.data.drop i))

/-- Test of `/(square|food|hospitality|culinary|entertainment)\s+group$/i`
(parser step 8 guard; no word boundary before the alternative, so e.g.
"seafood group" also matches). -/
def squareFoodGroupTest (s : String) : Bool :=
  (List.range s.data.length).any (fun i =>
    ["square", "food", "hospitality", "culinary", "entertainment"].any (fun w =>
      ciPrefixL w.data (s.data.drop i) &&
        matchWsWordsEnd ["group"] (s.data.drop (i + w.length))))

/-- One replacement pass of an end-anchored strip pattern
`/\s+(alt₁|alt₂|...)(\.?)$/i`: find the leftmost whitespace position from which
a run of whitespace, one of the alternatives, an optional trailing dot (only if
`optDot`) and then the end of the string follow; cut the string there.
Implements the two suffix-stripping replacements of parser step 8 and the one
in cleanCompanyName's second replace. -/
def stripEndAltsIdx (alts : List String) (optDot : Bool) (s : List Char) : Option Nat :=
  (List.range s.length).find? (fun i =>
    match s.drop i with
    | [] => false
    | c :: cs =>
      jsWs c &&
        (let r := cs.dropWhile jsWs
         alts.any (fun a =>
           ciPrefixL a.data r &&
             (match r.drop a.length with
              | [] => true
              | ['.'] => optDot
              | _ => false))))

/-- Apply the end-anchored strip: `s.replace(/\s+(...)\.?$/i, '')`. -/
def stripEndAlts (alts : List String) (optDot : Bool) (s : String) : String :=
  match stripEndAltsIdx alts optDot s.data with
  | none => s
  | some i => ⟨s.data.take i⟩

/-- Global replacement `([a-z])([A-Z])` → `'$1 $2'` (parser step 6; no `i`
flag, so genuinely lowercase followed by uppercase).  After each match the
scan resumes after the matched pair, exactly like a sticky global regex. -/
def camelCaseSplit : List Char → List Char
  | [] => []
  | [c] => [c]
  | a :: b :: rest =>
    if ('a' ≤ a && a ≤ 'z') && ('A' ≤ b && b ≤ 'Z') then
      a :: ' ' :: b :: camelCaseSplit rest
    else a :: camelCaseSplit (b :: rest)

/-- The alternatives of cleanCompanyName's first replacement
`/\s+(restaurant|bar|café|cafe|grill|bistro|tavern|kitchen|hospitality|group|llc|inc|corporation)\b/gi`. -/
def bizSuffixWords : List String :=
  ["restaurant", "bar", "café", "cafe", "grill", "bistro", "tavern", "kitchen",
   "hospitality", "group", "llc", "inc", "corporation"]

/-- Try the cleanCompanyName word alternatives at a whitespace run starting
here (`cs` is the text after the first whitespace character): if some
alternative matches `\s*(word)\b`, returns how many characters of `cs` the
whitespace run plus the matched word cover (so `cs.drop result` is the
remainder after the whole `\s+(word)\b` match). -/
def tryBizMatch (cs : List Char) : Option Nat :=
  let r := cs.dropWhile jsWs
  (bizSuffixWords.find? (fun w =>
    ciPrefixL w.data r &&
      (match r.drop w.length with
       | [] => true
       | c :: _ => !wordChar c))).map (fun w => (cs.length - r.length) + w.length)

/-- Fuel-indexed worker for `stripBizWords` (each step consumes at least one
character, so fuel `s.length` is enough). -/
def stripBizGo : Nat → List Char → List Char
  | _, [] => []
  | 0, s => s
  | f + 1, c :: cs =>
    if jsWs c then
      match tryBizMatch cs with
      | some n => stripBizGo f (cs.drop n)
      | none => c :: stripBizGo f cs
    else c :: stripBizGo f cs

/-- Global replacement pass for cleanCompanyName's
`/\s+(restaurant|...|corporation)\b/gi` → `''`: scan left to right, removing
every match and resuming after it. -/
def stripBizWords (s : List Char) : List Char :=
  stripBizGo s.length s

/-- Model of cleanCompanyName's second replacement
`/\s+[,-]\s+.*$/` → `''`: find the leftmost whitespace position followed (after
its whitespace run) by `,` or `-` and then at least one more whitespace
character, with only non-line-terminator characters after the subsequent
whitespace run; cut there. -/
def trailingLocIdx (s : List Char) : Option Nat :=
  (List.range s.length).find? (fun i =>
    match s.drop i with
    | [] => false
    | c :: cs =>
      jsWs c &&
        (let r := cs.dropWhile jsWs
         match r with
         | [] => false
         | d :: ds =>
           (d == ',' || d == '-') &&
             (match ds with
              | [] => false
              | e :: es => jsWs e && (es.dropWhile jsWs).all dotChar)))

/-- Apply cleanCompanyName's `s.replace(/\s+[,-]\s+.*$/, '')`. -/
def stripTrailingLoc (s : String) : String :=
  match trailingLocIdx s.data with
  | none => s
  | some i => ⟨s.data.take i⟩

/-! ## Configuration constants of the source -/

/-- The EXCLUDED_COMPANIES set of the main scraper script (already
lower-cased by the source's `.map(name => name.toLowerCase())`). -/
def EXCLUDED_COMPANIES : List String :=
  ["alliance personnel", "august point advisors", "bon appetit",
   "capital restaurant associates", "chartwells", "compass", "core recruitment",
   "ehs recruiting", "empowered hospitality", "eurest", "goodwin recruiting",
   "hmg plus - new york", "lsg sky chefs", "major food group", "measured hr",
   "one haus", "patrice & associates", "persone nyc", "playbook advisors",
   "restaurant associates", "source one hospitality", "starr",
   "ten five hospitality", "the goodkind group", "tuttle hospitality",
   "willow tree recruiting",
   "washington", "washington dc", "washington d.c.", "washington d c"]

/-- The EXCLUDED_COMPANIES set of the second scraper variant, which lacks
the "STARR" entry but is otherwise identical. -/
def EXCLUDED_COMPANIES_2 : List String :=
  ["alliance personnel", "august point advisors", "bon appetit",
   "capital restaurant associates", "chartwells", "compass", "core recruitment",
   "ehs recruiting", "empowered hospitality", "eurest", "goodwin recruiting",
   "hmg plus - new york", "lsg sky chefs", "major food group", "measured hr",
   "one haus", "patrice & associates", "persone nyc", "playbook advisors",
   "restaurant associates", "source one hospitality",
   "ten five hospitality", "the goodkind group", "tuttle hospitality",
   "willow tree recruiting",
   "washington", "washington dc", "washington d.c.", "washington d c"]

/-- PARTIAL_EXCLUSIONS (lower-cased). -/
def PARTIAL_EXCLUSIONS : List String := ["whole foods"]

/-- GENERIC_EMAIL_PATTERNS: role-based address fragments to deprioritize. -/
def GENERIC_EMAIL_PATTERNS : List String :=
  ["info@", "contact@", "hello@", "admin@", "support@",
   "office@", "mail@", "inquiry@", "general@", "sales@",
   "help@", "service@", "hr@", "jobs@", "careers@",
   "team@", "marketing@", "press@", "media@", "events@"]

/-- TITLE_PRIORITY: the fixed ordered job-title priority list (note that
"chief people officer" occurs twice, at positions 0 and 43). -/
def TITLE_PRIORITY : List String :=
  ["chief people officer", "chief human resources officer", "chro",
   "head of hr", "head of human resources", "head of people", "head of talent",
   "hr director", "human resources director", "people director",
   "talent director", "talent acquisition director",
   "vp of hr", "vp of human resources", "vp of people", "vp of talent",
   "vp of talent acquisition",
   "people operations", "people ops", "talent operations",
   "hr manager", "human resources manager", "people manager", "talent manager",
   "talent acquisition manager",
   "hr specialist", "human resources specialist", "people specialist",
   "talent specialist",
   "recruiter", "talent recruiter", "technical recruiter", "executive recruiter",
   "hr", "human resources", "people", "talent", "talent acquisition",
   "ceo", "chief executive officer",
   "president",
   "coo", "chief operating officer",
   "chief people officer", "chief talent officer",
   "chief",
   "regional director", "area director", "district director",
   "regional manager", "area manager", "district manager",
   "regional", "area", "district",
   "director of operations", "operations director",
   "director of hr", "director of human resources", "director of people",
   "director of recruiting", "recruiting director",
   "director",
   "vice president", "vp",
   "general manager", "gm",
   "manager",
   "executive",
   "founder", "owner", "partner",
   "recruiting", "hiring", "employment", "personnel"]

/-- The genericTerms list of parseCompanyAndLocation. -/
def genericTerms : List String :=
  ["restaurant group", "hospitality group", "restaurant", "hospitality",
   "group", "consulting", "management", "restaurant consulting",
   "hospitality consulting", "food and beverage", "f&b",
   "bar", "cafe", "bistro", "tavern", "eatery", "catering",
   "culinary", "culinary group", "bakery", "dining", "dining group",
   "restaurant management", "hospitality management", "fine dining"]

/-- The commonLocations list of parseCompanyAndLocation. -/
def commonLocations : List String :=
  ["New York", "Los Angeles", "Chicago", "Houston", "Phoenix", "Philadelphia",
   "San Antonio", "San Diego", "Dallas", "San Jose", "Austin", "Jacksonville",
   "Fort Worth", "Columbus", "Indianapolis", "Charlotte", "San Francisco",
   "Seattle", "Denver", "Washington", "Boston", "El Paso", "Nashville",
   "Detroit", "Oklahoma City", "Portland", "Las Vegas", "Memphis", "Louisville",
   "Baltimore", "Milwaukee", "Albuquerque", "Tucson", "Fresno", "Sacramento",
   "Kansas City", "Miami", "Omaha", "Raleigh", "Oakland", "Minneapolis",
   "Tulsa", "Cleveland", "Wichita", "Arlington", "New Orleans", "Bakersfield",
   "Tampa", "Honolulu", "Aurora", "Anaheim", "Santa Ana", "St. Louis",
   "Pittsburgh", "Cincinnati", "Henderson", "Riverside", "St. Paul",
   "Manhattan", "Brooklyn", "Queens", "The Bronx", "Staten Island", "NYC",
   "NY", "LA", "IL", "CA", "FL", "TX", "GA", "MA", "SF", "DC", "PA",
   "WA", "CO", "AZ", "TN", "MO", "OR", "NV", "KY", "IN", "OH", "NC",
   "MI", "MD", "VA", "NJ", "MN"]

/-- The restaurantKeywords list of parseCompanyAndLocation. -/
def restaurantKeywords : List String :=
  ["restaurants by", "restaurants of", "restaurant group", "hospitality group",
   "dining group", "food group", "culinary group", "chef", "kitchen",
   "bistro", "cafe", "dining", "eatery", "tavern", "grill", "restaurant"]

/-- The jobTitlePrefixes list of parseCompanyAndLocation step 9. -/
def jobTitlePrefixes : List String :=
  ["chef", "sous chef", "pastry chef", "head chef", "executive chef",
   "general manager", "assistant manager", "manager", "director",
   "server", "bartender", "host", "hostess", "cook", "line cook",
   "a.m.", "p.m.", "morning", "evening", "night", "day", "weekend"]

/-! ## Text normalizer -/

/-- Characters kept by cleanSpecialCharacters' regex `[^\w\s.,&'-]` (the
complement of what the replace removes): word characters, whitespace,
and `.`, `,`, `&`, `'`, `-`. -/
def jsKeepChar (c : Char) : Bool :=
  wordChar c || jsWs c || c == '.' || c == ',' || c == '&' || c == '\'' || c == '-'

/-- Model of cleanSpecialCharacters:
`if (!text) return ''; return text.replace(/[^\w\s.,&'-]/g, '');`. -/
def cleanSpecialCharacters (text : String) : String :=
  if text == "" then "" else ⟨text.data.filter jsKeepChar⟩

/-- Model of cleanSpecialCharacters applied to a possibly-undefined argument
(the `!text` guard also catches `undefined`/`null`). -/
def cleanSpecialCharactersOpt : Option String → String
  | none => ""
  | some s => cleanSpecialCharacters s

/-- The character set the specification's Text Normalizer contract names:
"alphanumeric, whitespace, . , & ' -".  Stated from the spec's words, for
comparison with the implementation's `jsKeepChar`. -/
def specAllowedChar (c : Char) : Bool :=
  asciiAlphanum c || jsWs c || c == '.' || c == ',' || c == '&' || c == '\'' || c == '-'

/-- Model of cleanCompanyName:
strip the business-entity suffix words, then everything from a
` , `/` - ` separator on, then trim; if the result is empty, fall back
to the original input. -/
def cleanCompanyName (input : String) : String :=
  if input == "" then ""
  else
    let cleaned := jsTrim (stripTrailingLoc ⟨stripBizWords input.data⟩)
    if cleaned == "" then input else cleaned

/-! ## Title priority scorer -/

/-- First index of `x` in `l` (model of `Array.prototype.indexOf`, with
`none` in place of `-1`). -/
def firstIdx (l : List String) (x : String) : Option Nat :=
  match l with
  | [] => none
  | y :: ys => if y == x then some 0 else (firstIdx ys x).map (· + 1)

/-- The role-type synonym pairs of getTitlePriority's word-order special case. -/
def roleTypes : List (String × String) :=
  [("hr", "human resources"), ("talent", "talent acquisition"),
   ("people", "people operations")]

/-- The seniority-level synonym pairs of getTitlePriority's word-order
special case. -/
def levelTypes : List (String × String) :=
  [("manager", "manager of"), ("director", "director of"),
   ("vp", "vice president"), ("head", "head of"), ("chief", "chief")]

/-- One iteration of the nested role × level loops: the eight word-order
patterns, the standard form looked up in TITLE_PRIORITY, and the containment
test.  Returns the standard form's index when the combination fires. -/
def comboHit (lower : String) (role level : String × String) : Option Nat :=
  let patA := role.1 ++ " " ++ level.1
  let patB := level.1 ++ " of " ++ role.1
  let patC := level.1 ++ ", " ++ role.1
  let patD := role.2 ++ " " ++ level.1
  let patE := level.1 ++ " of " ++ role.2
  let patF := level.1 ++ ", " ++ role.2
  let patG := level.2 ++ " " ++ role.1
  let patH := level.2 ++ " " ++ role.2
  let standardIndex :=
    match firstIdx TITLE_PRIORITY (role.1 ++ " " ++ level.1) with
    | some i => some i
    | none => firstIdx TITLE_PRIORITY (role.2 ++ " " ++ level.1)
  match standardIndex with
  | none => none
  | some i =>
    if containsSub lower patA || containsSub lower patB || containsSub lower patC ||
       containsSub lower patD || containsSub lower patE || containsSub lower patF ||
       containsSub lower patG || containsSub lower patH then
      some i
    else none

/-- The role × level double loop, in source iteration order (role-major). -/
def comboPriority (lower : String) : Option Nat :=
  firstSome (fun p => comboHit lower p.1 p.2)
    (roleTypes.flatMap (fun r => levelTypes.map (fun l => (r, l))))

/-- The special VP/Head-of-HR scan: if the title mentions vp/vice president
together with an HR-adjacent function, return the first TITLE_PRIORITY entry
`vp of X` whose `X` the title contains. -/
def vpPriority (lower : String) : Option Nat :=
  if (containsSub lower "vp" || containsSub lower "vice president") &&
     (containsSub lower "hr" || containsSub lower "human resources" ||
      containsSub lower "people" || containsSub lower "talent") then
    (List.range TITLE_PRIORITY.length).find? (fun i =>
      let term := TITLE_PRIORITY.getD i ""
      jsStartsWith term "vp of " && containsSub lower (substrFrom term 6))
  else none

/-- Test of the guarded regex `/(^|\s)chief($|\s|,)/` on the lower-cased
title: an occurrence of "chief" preceded by start-of-string or whitespace and
followed by end-of-string, whitespace or a comma. -/
def realChiefRegexTest (lower : String) : Bool :=
  (List.range (lower.data.length + 1)).any (fun i =>
    (i == 0 || jsWs (lower.data.getD (i - 1) ' ')) &&
    isPrefixL "chief".data (lower.data.drop i) &&
    (match lower.data.drop (i + 5) with
     | [] => true
     | c :: _ => jsWs c || c == ','))

/-- The `isRealChief` test of getTitlePriority's substring loop, with
JavaScript operator precedence `A || (B && C)`. -/
def isRealChief (lower : String) : Bool :=
  realChiefRegexTest lower ||
    (containsSub lower "chief " && !containsSub lower "chief cook")

/-- One iteration of getTitlePriority's final substring loop, for priority
term `term` (the loop `break`s, i.e. returns, on the first hit). -/
def substrLoopHit (lower term : String) : Bool :=
  (containsSub term " " &&
    (splitChar ' ' term.data).all (fun w => containsSubL lower.data w)) ||
  (if term == "chief" && containsSub lower "chief" then isRealChief lower
   else containsSub lower term)

/-- The final substring loop: first index whose term fires, else the sentinel
`TITLE_PRIORITY.length + 1`. -/
def substrPriority (lower : String) : Nat :=
  match (List.range TITLE_PRIORITY.length).find? (fun i =>
      substrLoopHit lower (TITLE_PRIORITY.getD i "")) with
  | some i => i
  | none => TITLE_PRIORITY.length + 1

/-- Model of getTitlePriority: exact match first, then the word-order
combination patterns, then the VP special case, then the substring scan;
an empty (falsy) title gets the sentinel rank. -/
def getTitlePriority (title : String) : Nat :=
  if title == "" then TITLE_PRIORITY.length + 1
  else
    let lower := jsLower title
    match firstIdx TITLE_PRIORITY lower with
    | some i => i
    | none =>
      match comboPriority lower with
      | some i => i
      | none =>
        match vpPriority lower with
        | some i => i
        | none => substrPriority lower

/-! ## Company name parser -/

/-- Step 2: `rawName.split('•')[0]`. -/
def beforeBullet (s : String) : String :=
  ⟨s.data.takeWhile (fun c => c != '•')⟩

/-- Step 2.5 body for one location: fix a missing space before a city name
that is glued to a preceding letter (with the special `Hour${location}`
sub-case tried first). -/
def step25City (np : String) (loc : String) : String :=
  if decide (loc.length ≥ 5) && containsSub np loc && !containsSub np (" " ++ loc) then
    if (cityPatIdx loc.data np.data).isSome then
      if hourLocTest loc np then hourLocReplace loc np
      else cityPatReplace loc np
    else np
  else np

/-- Step 2.5: the `for (const location of commonLocations)` loop (each
iteration sees the updated name). -/
def step25Cities (np : String) : String :=
  commonLocations.foldl step25City np

/-- Step 3, all-caps patterns: the four tests
`/^[A-Z\s.'&]+\s+RESTAURANT\s+GROUP$/i`, `HOSPITALITY GROUP`, `FINE DINING`,
`CULINARY GROUP`. -/
def allCapsGroupTest (np : String) : Bool :=
  classThenWsWords allCapsCls ["restaurant", "group"] np.data ||
  classThenWsWords allCapsCls ["hospitality", "group"] np.data ||
  classThenWsWords allCapsCls ["fine", "dining"] np.data ||
  classThenWsWords allCapsCls ["culinary", "group"] np.data

/-- Step 3, "excluded ending" patterns: the seven tests
`/^(.+\s+)restaurant\s+group$/i` … `/^(.+\s+)hospitality\s+management$/i`. -/
def excludedEndingTest (np : String) : Bool :=
  [["restaurant", "group"], ["hospitality", "group"], ["fine", "dining"],
   ["culinary", "group"], ["dining", "group"], ["restaurant", "management"],
   ["hospitality", "management"]].any
    (fun ws => classThenWsWords dotChar ws np.data)

/-- Step 3, restaurant-keyword extraction, inner location-boundary search:
`namePart.indexOf(location, startIndex)` over commonLocations in list order,
stopping at the first location found strictly after `start`. -/
def keywordLocEnd (np : String) (start : Nat) : Nat :=
  match firstSome (fun loc =>
      match idxOfSubFrom np loc start with
      | some k => if k > start then some k else none
      | none => none) commonLocations with
  | some k => k
  | none => np.length

/-- Step 3, restaurant-keyword extraction, one keyword: mirrors the loop body,
returning the extracted name if this keyword fires. -/
def keywordExtractOne (np : String) (kw : String) : Option String :=
  match idxOfSub (jsLower np) kw with
  | none => none
  | some idx =>
    if idx > 3 then
      let beforeKeyword := jsTrim (substr np 0 idx)
      if (jsSplitWs beforeKeyword).length ≥ 2 then none
      else
        let endIdx := keywordLocEnd np idx
        let potential := jsTrim (substr np idx endIdx)
        let potentialLower := jsLower potential
        let isExactGenericTerm :=
          genericTerms.contains potentialLower ||
          potentialLower == "restaurant group" || potentialLower == "fine dining"
        let wordCount :=
          ((jsSplitWs potential).filter (fun w => w.length > 1)).length
        let isGenericPlusOneWord :=
          decide (wordCount ≤ 3) &&
            (jsEndsWith potentialLower " restaurant group" ||
             jsEndsWith potentialLower " fine dining" ||
             jsEndsWith potentialLower " hospitality group" ||
             jsEndsWith potentialLower " restaurant" ||
             jsEndsWith potentialLower " hospitality")
        if isExactGenericTerm || isGenericPlusOneWord then none
        else if potential.length > kw.length + 2 then some potential
        else none
    else none

/-- Step 3, restaurant-keyword extraction: the keyword loop (first keyword
that fires wins; `break`). -/
def keywordExtract (np : String) : Option String :=
  firstSome (keywordExtractOne np) restaurantKeywords

/-- Step 3 as a whole: returns the (possibly replaced) name and the
`extractedFromKeywords` flag. -/
def step3 (np : String) : String × Bool :=
  if allCapsGroupTest np then (np, true)
  else if excludedEndingTest np then (np, true)
  else if groupNycTest np then ("Group NYC Hospitality", true)
  else
    match keywordExtract np with
    | some p => (p, true)
    | none => (np, false)

/-- Step 4: commonLocations sorted by length, longest first.  The source uses
`[...commonLocations].sort((a, b) => b.length - a.length)`, a stable sort;
`List.insertionSort` with the non-strict "longer or equal" relation is stable
in the same sense (ties keep list order).  The sort of this fixed list is
precomputed here as a literal so that proofs can evaluate the parser without
re-running the sort; the theorem sortedLocations_eq below checks it against
the sort expression. -/
def sortedLocations : List String :=
  ["San Francisco", "Oklahoma City", "Staten Island", "Philadelphia",
   "Jacksonville", "Indianapolis", "Los Angeles", "San Antonio",
   "Albuquerque", "Kansas City", "Minneapolis", "New Orleans", "Bakersfield",
   "Fort Worth", "Washington", "Louisville", "Sacramento", "Pittsburgh",
   "Cincinnati", "San Diego", "Charlotte", "Nashville", "Las Vegas",
   "Baltimore", "Milwaukee", "Cleveland", "Arlington", "Santa Ana",
   "St. Louis", "Henderson", "Riverside", "Manhattan", "The Bronx",
   "New York", "San Jose", "Columbus", "Portland", "Honolulu", "St. Paul",
   "Brooklyn", "Chicago", "Houston", "Phoenix", "Seattle", "El Paso",
   "Detroit", "Memphis", "Raleigh", "Oakland", "Wichita", "Anaheim", "Dallas",
   "Austin", "Denver", "Boston", "Tucson", "Fresno", "Aurora", "Queens",
   "Miami", "Omaha", "Tulsa", "Tampa", "NYC", "NY", "LA", "IL", "CA", "FL",
   "TX", "GA", "MA", "SF", "DC", "PA", "WA", "CO", "AZ", "TN", "MO", "OR",
   "NV", "KY", "IN", "OH", "NC", "MI", "MD", "VA", "NJ", "MN"]

/-- Step 4 body for one location: the match of
`new RegExp(`([a-zA-Z])(${location}\\b)`, 'i')` plus the explicit
`isWordBoundary` re-check (`nextCharAfterMatch` empty, whitespace, `,` or
`.`).  Returns the cut position `match.index + 1` if the location fires. -/
def step4LocHit (np : String) (loc : String) : Option Nat :=
  match (List.range np.data.length).find? (fun i =>
      asciiLetter (np.data.getD i ' ') &&
      matchPatAt loc.data (np.data.drop (i + 1)) &&
      (match np.data.drop (i + 1 + loc.length) with
       | [] => true
       | c :: _ => !wordChar c)) with
  | none => none
  | some i =>
    let isWordBoundary :=
      match np.data.drop (i + 1 + loc.length) with
      | [] => true
      | c :: _ => jsWs c || c == ',' || c == '.'
    if isWordBoundary then some (i + 1) else none

/-- Step 4: scan sortedLocations (skipping those of length ≤ 2), cut at the
first location whose match also passes the word-boundary re-check. -/
def step4Find (np : String) : Option Nat :=
  firstSome (fun loc =>
    if loc.length ≤ 2 then none else step4LocHit np loc) sortedLocations

/-- Step 5: comma handling (`lastIndexOf(',')`, with a second cut when the
part before the comma itself contains a comma). -/
def step5Comma (np : String) : String :=
  match lastIdxOfChar np ',' with
  | none => np
  | some commaIndex =>
    let firstPart := jsTrim (substr np 0 commaIndex)
    match lastIdxOfChar firstPart ',' with
    | some earlier => jsTrim (substr firstPart 0 earlier)
    | none => firstPart

/-- Step 7: the `' by '` window — keep everything from 11 characters before
the `' by '` occurrence (clamped at 0). -/
def step7By (np : String) : String :=
  match idxOfSub np " by " with
  | some byIndex =>
    if byIndex > 0 then jsTrim (substrFrom np (byIndex - 11)) else np
  | none => np

/-- Step 9: strip a single leading job-title prefix (first matching prefix in
list order; the cut keeps the following space, which the trim removes). -/
def step9JobTitle (np : String) : String :=
  match jobTitlePrefixes.find? (fun p =>
      jsStartsWith (jsLower np) (jsLower p ++ " ")) with
  | some p => jsTrim (substrFrom np p.length)
  | none => np

/-- The standalone industry words of step 10's single-word check. -/
def standaloneIndustryWords : List String :=
  ["restaurant", "hospitality", "bar", "cafe", "bistro", "tavern",
   "eatery", "catering", "culinary", "bakery", "dining"]

/-- The validLocationPrefixTerms of step 10. -/
def validLocationTerms : List String :=
  ["brewery", "culinary", "dining", "restaurants", "kitchen", "tavern", "bistro"]

/-- Step 10: final classification of the residual name (the source checks
"is exactly a location" twice in a row; the duplicate is collapsed here since
both tests and outcomes are identical). -/
def step10Classify (np : String) : String :=
  let lower := jsLower np
  if genericTerms.any (fun t => lower == jsLower t) then "Unknown"
  else
    let wordCount := ((jsSplitWs np).filter (fun w => w.length > 0)).length
    if wordCount == 1 && lower.length > 2 && standaloneIndustryWords.contains lower then
      "Unknown"
    else if commonLocations.any (fun loc => lower == jsLower loc) then "Unknown"
    else if decide (np.length < 20) &&
        !(validLocationTerms.any (fun t => containsSub lower (jsLower t))) &&
        commonLocations.any (fun loc => jsStartsWith lower (jsLower loc ++ " ")) then
      "Unknown"
    else if decide (np.length < 3) ||
        (decide (np.length ≤ 5) &&
          (splitChar ' ' np.data).all (fun part => part.length == 1)) then
      "Unknown"
    else if np == "" then "Unknown"
    else np

/-- Model of parseCompanyAndLocation, parameterised by the script's
EXCLUDED_COMPANIES list (the two scraper variants share the parser body but
differ in that list).  The source returns `{name, location}` with `location`
always `''`; only the name is modelled. -/
def parseCompanyNameWith (excluded : List String) (rawName : String) : String :=
  if rawName == "" || rawName == "Unknown" then "Unknown"
  else
    let cleanedRawName := cleanSpecialCharacters rawName
    let normalizedRawName := removeWs (jsLower cleanedRawName)
    match PARTIAL_EXCLUSIONS.find? (fun ex =>
        containsSub normalizedRawName (removeWs ex)) with
    | some ex => "Excluded: " ++ ex
    | none =>
      let rawNameLower := jsLower cleanedRawName
      if excluded.any (fun ex => containsSub rawNameLower ex) then "Excluded"
      else if commonLocations.any (fun loc =>
            jsStartsWith rawNameLower (jsLower loc)) &&
          containsSub rawName "•" then "Unknown"
      else
        let np0 := cleanSpecialCharacters (jsTrim (beforeBullet rawName))
        let np1 := step25Cities np0
        let np2 :=
          if !containsSub np1 "Barbecue" && !containsSub np1 " - " then
            wordBoundaryFix np1
          else np1
        let s3 := step3 np2
        let np3 := s3.1
        let extracted := s3.2
        let np4 :=
          if extracted then np3
          else
            match step4Find np3 with
            | some cut => jsTrim (substr np3 0 cut)
            | none => step5Comma np3
        let np5 :=
          if !containsSub np4 "NYC" && !containsSub np4 "SoHo" then
            ⟨camelCaseSplit np4.data⟩
          else np4
        let np6 :=
          if !extracted && containsSub np5 " by " then step7By np5 else np5
        let np7 := jsTrim (stripEndAlts ["LLC", "Inc", "Corporation", "Corp", "Co.", "Co"] true np6)
        let np8 :=
          if !squareFoodGroupTest np7 then
            jsTrim (stripEndAlts
              ["restaurant", "bar", "café", "cafe", "grill", "bistro", "tavern", "kitchen"]
              false np7)
          else np7
        let np9 := step9JobTitle np8
        step10Classify np9

/-- parseCompanyAndLocation of the main scraper script (company name only). -/
def parseCompanyAndLocation (rawName : String) : String :=
  parseCompanyNameWith EXCLUDED_COMPANIES rawName

/-- parseCompanyAndLocation of the second scraper variant (company name only). -/
def parseCompanyAndLocation2 (rawName : String) : String :=
  parseCompanyNameWith EXCLUDED_COMPANIES_2 rawName

/-! ## Contact scorer and email processing

Raw contact records from the directory API are modelled with string fields
defaulting to `""` (JavaScript treats a missing string field and the empty
string the same way in every use below, which is through truthiness tests) and
an optional numeric confidence (the source distinguishes a missing number via
`typeof === 'number'`).  Numbers are modelled as rationals since the source
divides confidences by 2.
-/

/-- One raw contact record from the Hunter API (subset of fields the engine
reads). -/
structure RawEmail where
  value : String := ""
  email : String := ""
  first_name : String := ""
  last_name : String := ""
  position : String := ""
  position_raw : String := ""
  confidence : Option Rat := none
  type : String := ""
deriving DecidableEq, Repr

/-- A processed contact as produced by processEmails (the merge step later
fills in `source`; `matchesFinalDomain` is set by the second variant's merge). -/
structure Contact where
  name : String
  title : String
  email : String
  confidence : Rat
  priority : Rat
  source : String := ""
  matchesFinalDomain : Bool := false
deriving DecidableEq, Repr

/-- Model of isGenericEmail: empty (falsy) addresses count as generic;
otherwise check the generic role-based patterns. -/
def isGenericEmail (email : String) : Bool :=
  if email == "" then true
  else GENERIC_EMAIL_PATTERNS.any (fun p => containsSub (jsLower email) p)

/-- Model of calculateEmailScore: contacts without a `value` get 1000; a
contact with a (truthy, non-blank) title defers entirely to getTitlePriority;
otherwise a base of 500 adjusted by genericness, name presence, confidence
and contact type. -/
def calculateEmailScore (e : RawEmail) : Rat :=
  if e.value == "" then 1000
  else
    let title := jsOrS e.position e.position_raw
    if title != "" && jsTrim title != "" then
      (getTitlePriority title : Rat)
    else
      let s1 : Rat := 500 + (if isGenericEmail e.value then 200 else -100)
      let s2 := s1 + (if e.first_name != "" || e.last_name != "" then -50 else 50)
      let s3 := s2 - (match e.confidence with | some c => c / 2 | none => 0)
      s3 + (if e.type != "" then
              if e.type == "personal" then -75
              else if e.type == "generic" then 25
              else 0
            else 0)

/-- The mapping step of processEmails: normalize one raw record into a
`Contact`, or drop it when it carries no address (`value` nor `email`). -/
def processOneEmail (e : RawEmail) : Option Contact :=
  let emailValue := jsOrS e.value e.email
  if emailValue == "" then none
  else
    some
      { name :=
          if e.first_name != "" && e.last_name != "" then
            jsTrim (e.first_name ++ " " ++ e.last_name)
          else jsOrS e.first_name (jsOrS e.last_name "Unknown"),
        title := jsOrS (jsOrS e.position e.position_raw) "N/A",
        email := emailValue,
        confidence := e.confidence.getD 0,
        priority := calculateEmailScore e }

/-- Model of processEmails on the array form of its input: TLD filtering is
the identity in this build (filterNonUSEmails returns its input unchanged),
records without an address are dropped, and the result is sorted by score
ascending.  `Array.prototype.sort` is stable (TimSort), as is
`List.insertionSort` with a non-strict comparator, so the two agree. -/
def processEmails (emails : List RawEmail) : List Contact :=
  if emails.isEmpty then []
  else
    (emails.filterMap processOneEmail).insertionSort
      (fun a b => a.priority ≤ b.priority)

/-! ## Enrichment client (getCompanyInfoWithSource of the main script)

The Hunter HTTP API is modelled as an oracle from the search term to an
outcome: a parsed JSON document (possibly missing its `data` member), or a
failure (HTTP status ≥ 400, timeout, network error — all of which throw
inside the `try` block and are handled identically up to a log line and the
429 cool-down delay, neither of which is modelled).  The per-email
`_originalCompany`/`_originalDomain`/`_sourceTime` decorations only feed log
output and are not modelled.  DISABLE_COMPANY_CACHE is `true` in the source,
so the cache read/write branches are dead and not modelled. -/

/-- One entry of `data.data.results`. -/
structure HunterResultEntry where
  company : String := ""
  domain : String := ""
  linkedin : String := ""
  employees_count : String := ""
  headcount : String := ""
  emails : Option (List RawEmail) := none
deriving DecidableEq, Repr

/-- The `data.data` member of a Hunter response. -/
structure HunterData where
  results : Option (List HunterResultEntry) := none
  emails : Option (List RawEmail) := none
  organization : String := ""
  domain : String := ""
  linkedin : String := ""
  headcount : String := ""
deriving DecidableEq, Repr

/-- Outcome of one `fetch` of the Hunter domain-search endpoint.  `ok none`
models a 2xx response whose JSON lacks the `data` member (the source then
throws, landing in the same `catch` as an HTTP error). -/
inductive ApiOutcome where
  | ok (data : Option HunterData)
  | fail (status : Option Nat)
deriving DecidableEq, Repr

/-- Does this outcome land in the `catch` block? -/
def ApiOutcome.isFail : ApiOutcome → Bool
  | .ok (some _) => false
  | .ok none => true
  | .fail _ => true

/-- The result record getCompanyInfoWithSource returns (the `timestamp`
field, a wall-clock reading, is not modelled). -/
structure CompanyInfo where
  linkedin : String
  domain : String
  size : String
  emails : List Contact
  source : String
  originalCompany : Option String := none
deriving DecidableEq, Repr

/-- The early-return shape for empty/Unknown/"Excluded:" names. -/
def skipShape (source : String) : CompanyInfo :=
  { linkedin := "N/A", domain := "N/A", size := "N/A", emails := [], source := source }

/-- The early-return shape when the cleaned name matches the exclusion lists. -/
def excludedShape (source : String) : CompanyInfo :=
  { linkedin := "Excluded", domain := "N/A", size := "N/A", emails := [], source := source }

/-- The catch-block failure shape. -/
def errShape (source : String) : CompanyInfo :=
  { linkedin := "Error", domain := "N/A", size := "N/A", emails := [], source := source }

/-- The search term the client sends to the API for a company name:
`cleanCompanyName(cleanSpecialCharacters(companyName)).trim()`. -/
def searchTermOf (companyName : String) : String :=
  jsTrim (cleanCompanyName (cleanSpecialCharacters companyName))

/-- The guard of getCompanyInfoWithSource's first early return:
`!companyName || companyName === 'Unknown' || companyName.startsWith('Excluded:')`. -/
def skipGuard (companyName : String) : Bool :=
  companyName == "" || companyName == "Unknown" ||
    jsStartsWith companyName "Excluded:"

/-- The exclusion re-check of getCompanyInfoWithSource: exact-list containment
on the cleaned name (with and without spaces), then the partial-exclusion
terms. -/
def exclGuard (companyName : String) : Bool :=
  let lowerCleanedName := jsLower (cleanCompanyName (cleanSpecialCharacters companyName))
  let normalizedName := removeWs lowerCleanedName
  EXCLUDED_COMPANIES.contains lowerCleanedName ||
  EXCLUDED_COMPANIES.any (fun ex => containsSub normalizedName (removeWs ex)) ||
  PARTIAL_EXCLUSIONS.any (fun t =>
    containsSub lowerCleanedName t || containsSub normalizedName (removeWs t))

/-- Index of the first `results` entry with a nonempty `emails` array
(`bestResultIndex`). -/
def bestResultIdx (rs : List HunterResultEntry) : Option Nat :=
  (List.range rs.length).find? (fun i =>
    match (rs.getD i {}).emails with
    | some es => !es.isEmpty
    | none => false)

/-- The success path of getCompanyInfoWithSource, given the parsed `data.data`:
prefer the first search result that has emails; otherwise use the primary
data object.  Only the primary path records `originalCompany` (and only when
it found emails — the cache write that follows is disabled). -/
def successResult (companyName source : String) (d : HunterData) : CompanyInfo :=
  match d.results with
  | some rs =>
    if !rs.isEmpty then
      match bestResultIdx rs with
      | some i =>
        let bestResult := rs.getD i {}
        { linkedin := jsOrS bestResult.linkedin "N/A",
          domain := jsOrS bestResult.domain "N/A",
          size := jsOrS bestResult.employees_count (jsOrS bestResult.headcount "N/A"),
          emails := processEmails (bestResult.emails.getD []),
          source := source ++ "_result_" ++ toString (i + 1) }
      | none => primaryResult companyName source d
    else primaryResult companyName source d
  | none => primaryResult companyName source d
where
  /-- The fall-through on the primary `data.data` object. -/
  primaryResult (companyName source : String) (d : HunterData) : CompanyInfo :=
    let processed := match d.emails with
      | some es => processEmails es
      | none => []
    { linkedin := jsOrS d.linkedin "N/A",
      domain := jsOrS d.domain "N/A",
      size := jsOrS d.headcount "N/A",
      emails := processed,
      source := source,
      originalCompany := if processed.isEmpty then none else some companyName }

/-- One un-retried pass of getCompanyInfoWithSource: either an early return
(guards), a success-path result, or "the catch block was reached".  The
second component of a result is the list of search terms actually sent to the
external API. -/
inductive LookupOutcome where
  | result (r : CompanyInfo) (trace : List String)
  | apiError (trace : List String)

/-- Everything getCompanyInfoWithSource does apart from the catch-block retry
decision. -/
def lookupOnce (api : String → ApiOutcome) (companyName source : String) :
    LookupOutcome :=
  if skipGuard companyName then .result (skipShape source) []
  else if exclGuard companyName then .result (excludedShape source) []
  else
    let term := searchTermOf companyName
    match api term with
    | .ok (some d) => .result (successResult companyName source d) [term]
    | .ok none => .apiError [term]
    | .fail _ => .apiError [term]

/-- Model of getCompanyInfoWithSource.  On an API failure in `'company'` mode
with a distinct nonempty location, the source re-enters itself once as
`getCompanyInfoWithSource(locationName, '', 'location')`; that inner call can
never retry again (its source is `'location'`), so the recursion is unrolled
here.  Returns the result together with the trace of search terms sent to the
external API. -/
def getCompanyInfoWithSource (api : String → ApiOutcome)
    (companyName locationName source : String) : CompanyInfo × List String :=
  match lookupOnce api companyName source with
  | .result r tr => (r, tr)
  | .apiError tr =>
    if source == "company" && locationName != "" && locationName != companyName then
      match lookupOnce api locationName "location" with
      | .result r tr2 => (r, tr ++ tr2)
      | .apiError tr2 => (errShape "location", tr ++ tr2)
    else (errShape source, tr)

/-! ## Orchestrator merge (getCompanyInfo of the main script) -/

/-- One per-strategy result as accumulated in `allResults`:
`{ source, data }`. -/
structure SourceResult where
  source : String
  data : CompanyInfo
deriving DecidableEq, Repr

/-- The merged record (`mergedResult`); the unmodelled `timestamp` aside. -/
structure MergedInfo where
  linkedin : String
  domain : String
  size : String
  emails : List Contact
  source : String
  sourcesWithEmails : Nat
deriving DecidableEq, Repr

/-- JavaScript `Set` insertion: keep first insertion order, ignore repeats. -/
def setAdd (l : List String) (x : String) : List String :=
  if l.contains x then l else l ++ [x]

/-- Model of `Array.from(set).join('; ')`. -/
def joinSemi (l : List String) : String :=
  match l with
  | [] => ""
  | x :: xs => xs.foldl (fun acc y => acc ++ "; " ++ y) x

/-- The inner email loop of the merge: add each contact whose lower-cased
address is not yet in the seen-set, tagging it with the strategy source. -/
def addEmailsFrom (src : String) (seen : List String) (out : List Contact)
    (es : List Contact) : List String × List Contact :=
  match es with
  | [] => (seen, out)
  | e :: rest =>
    let emailKey := jsLower e.email
    if seen.contains emailKey then addEmailsFrom src seen out rest
    else addEmailsFrom src (seen ++ [emailKey]) (out ++ [{ e with source := src }]) rest

/-- The second pass of the merge (emails, size, sourcesWithEmails) over the
already-sorted results. -/
def mergePass (acc : List String × List Contact × Nat × String)
    (r : SourceResult) : List String × List Contact × Nat × String :=
  let (seen, out, swe, size) := acc
  let swe' := if r.data.emails.isEmpty then swe else swe + 1
  let size' := if size == "N/A" && r.data.size != "N/A" then r.data.size else size
  let (seen', out') := addEmailsFrom r.source seen out r.data.emails
  (seen', out', swe', size')

/-- Model of the merge section of getCompanyInfo (main script):
first pass collects LinkedIn URLs and domains as `Set`s over the original
order, then `allResults` is stably sorted by email count (descending), then
emails are merged first-writer-wins keyed by lower-cased address, and the
merged list is finally sorted by title priority. -/
def getCompanyInfoMerge (allResults : List SourceResult) : MergedInfo :=
  let linkedins := allResults.foldl (fun acc r =>
    if r.data.linkedin != "" && r.data.linkedin != "N/A" &&
       r.data.linkedin != "Excluded" && r.data.linkedin != "Error" then
      setAdd acc r.data.linkedin
    else acc) []
  let domains := allResults.foldl (fun acc r =>
    if r.data.domain != "" && r.data.domain != "N/A" then
      setAdd acc r.data.domain
    else acc) []
  let sorted := allResults.insertionSort
    (fun a b => b.data.emails.length ≤ a.data.emails.length)
  let merged := sorted.foldl mergePass ([], [], 0, "N/A")
  { linkedin := jsOrS (joinSemi linkedins) "N/A",
    domain := jsOrS (joinSemi domains) "N/A",
    size := merged.2.2.2,
    emails := merged.2.1.insertionSort
      (fun a b => getTitlePriority a.title ≤ getTitlePriority b.title),
    source := "merged",
    sourcesWithEmails := merged.2.2.1 }

/-! ## Second scraper variant: orchestrator and merge

The second variant's getCompanyInfo drives a Google-based domain-discovery
strategy for the primary company and (optionally) the parent company,
guarded only by `name && !name.startsWith('Excluded')` checks, and merges the
strategy results with a domain-first preference.  Its getDomainFromUrl helper
(URL parsing) is abstracted as a parameter `domOf`, which only feeds the
per-contact `matchesFinalDomain` flag. -/

/-- The company names the second variant's getCompanyInfo passes to
getWebsiteUrlFromGoogle, in call order: the parsed primary name unless it is
falsy or starts with "Excluded", then the parsed parent name unless it is
falsy, equal to the primary, or starts with "Excluded".  (Each search task
invokes getWebsiteUrlFromGoogle as its first step, and the tasks run
sequentially.) -/
def googleSearchTerms (rawCompanyName : String) (parentCompanyName : Option String) :
    List String :=
  let primaryCompanyName := parseCompanyAndLocation2 rawCompanyName
  let parsedParentCompany := parentCompanyName.map parseCompanyAndLocation2
  (if primaryCompanyName != "" && !jsStartsWith primaryCompanyName "Excluded" then
    [primaryCompanyName]
  else []) ++
  (match parsedParentCompany with
   | some p =>
     if p != "" && p != primaryCompanyName && !jsStartsWith p "Excluded" then [p]
     else []
   | none => [])

/-- The merged record of the second variant (adds the domain bookkeeping). -/
structure MergedInfo2 where
  linkedin : String
  domain : String
  size : String
  emails : List Contact
  source : String
  sourcesWithEmails : Nat
  parentDomain : Option String
  allDomains : List String
deriving DecidableEq, Repr

/-- Second variant's result-ordering comparator: domain-sourced results first,
then by email count (stable). -/
def domainFirstLe (a b : CompanyInfo) : Prop :=
  (containsSub a.source "_domain" && !containsSub b.source "_domain") = true ∨
    (containsSub a.source "_domain" = containsSub b.source "_domain" ∧
      b.emails.length ≤ a.emails.length)

instance : DecidableRel domainFirstLe := fun a b => by
  unfold domainFirstLe; infer_instance

/-- One pass of the second variant's merge fold: linkedin URLs are split on
`'; '` and each added; only the first `'; '`-component of a domain is added;
size comes from the first truthy non-N/A source; emails are merged
first-writer-wins keyed by lower-cased address with
`source || 'unknown_source'` attribution (records with a falsy `email` are
skipped). -/
def mergePass2 (acc : List String × List String × (List String × List Contact) × Nat × String)
    (r : CompanyInfo) : List String × List String × (List String × List Contact) × Nat × String :=
  let (links, doms, seenOut, swe, size) := acc
  let links' :=
    if r.linkedin != "" && r.linkedin != "N/A" && r.linkedin != "Excluded" &&
       r.linkedin != "Error" then
      (jsSplitSep r.linkedin "; ").foldl setAdd links
    else links
  let doms' :=
    if r.domain != "" && r.domain != "N/A" then
      setAdd doms ((jsSplitSep r.domain "; ").getD 0 "")
    else doms
  let size' := if size == "N/A" && r.size != "" && r.size != "N/A" then r.size else size
  let swe' := if r.emails.isEmpty then swe else swe + 1
  let seenOut' := addEmailsFrom (jsOrS r.source "unknown_source") seenOut.1 seenOut.2
    (r.emails.filter (fun e => e.email != ""))
  (links', doms', seenOut', swe', size')

/-- Model of the merge section of the second variant's getCompanyInfo. -/
def getCompanyInfoMerge2 (domOf : String → Option String)
    (allResults : List CompanyInfo) : MergedInfo2 :=
  let sorted := allResults.insertionSort domainFirstLe
  let m := sorted.foldl mergePass2 ([], [], ([], []), 0, "N/A")
  let finalDomains := m.2.1
  let emails := m.2.2.1.2
  let flagged :=
    if finalDomains.isEmpty then
      emails.map (fun e => { e with matchesFinalDomain := false })
    else
      emails.map (fun e =>
        { e with matchesFinalDomain :=
            if e.email != "" then
              match domOf e.email with
              | some d => finalDomains.any (fun fd => jsLower fd == jsLower d)
              | none => false
            else false })
  { linkedin := jsOrS (joinSemi m.1) "N/A",
    domain := finalDomains.getD 0 "N/A",
    size := m.2.2.2.2,
    emails := flagged.insertionSort
      (fun a b => getTitlePriority a.title ≤ getTitlePriority b.title),
    source := "merged",
    sourcesWithEmails := m.2.2.2.1,
    parentDomain := none,
    allDomains := finalDomains }

/-- The dedup invariant carried through the merge folds: every collected
contact's lower-cased address is in the seen-set, and the collected contacts
have pairwise distinct lower-cased addresses. -/
def MergeInvP (seen : List String) (out : List Contact) : Prop :=
  (∀ c ∈ out, seen.contains (jsLower c.email) = true) ∧
    out.Pairwise (fun a b => jsLower a.email ≠ jsLower b.email)

/-- Per-location check for the location-only parse property: the entry is one
of the two exceptional names, or it parses to the sentinel "Unknown". -/
def locOkay (loc : String) : Bool :=
  loc == "Washington" || loc == "Denver" ||
    parseCompanyAndLocation loc == "Unknown"

/-! ## Helper lemmas -/

/-- The precomputed sortedLocations literal is exactly the stable
length-descending sort of commonLocations. -/
theorem sortedLocations_eq :
    sortedLocations = commonLocations.insertionSort (fun a b => b.length ≤ a.length) := by
  decide

/-- Chunked `all`: a block of nine plus the checked remainder gives the
remainder from the block's start. -/
theorem all_drop_step {p : String → Bool} {l : List String} {n : Nat}
    (h1 : ((l.drop n).take 9).all p = true)
    (h2 : (l.drop (n + 9)).all p = true) :
    (l.drop n).all p = true := by
  rw [← List.take_append_drop 9 (l.drop n), List.all_append, List.drop_drop,
    Bool.and_eq_true]
  exact ⟨h1, h2⟩

set_option maxRecDepth 1000000 in
set_option maxHeartbeats 4000000 in
theorem locOkay_chunk0 : (commonLocations.take 9).all locOkay = true := by decide

set_option maxRecDepth 1000000 in
set_option maxHeartbeats 4000000 in
theorem locOkay_chunk1 : ((commonLocations.drop 9).take 9).all locOkay = true := by decide

set_option maxRecDepth 1000000 in
set_option maxHeartbeats 4000000 in
theorem locOkay_chunk2 : ((commonLocations.drop 18).take 9).all locOkay = true := by decide

set_option maxRecDepth 1000000 in
set_option maxHeartbeats 4000000 in
theorem locOkay_chunk3 : ((commonLocations.drop 27).take 9).all locOkay = true := by decide

set_option maxRecDepth 1000000 in
set_option maxHeartbeats 4000000 in
theorem locOkay_chunk4 : ((commonLocations.drop 36).take 9).all locOkay = true := by decide

set_option maxRecDepth 1000000 in
set_option maxHeartbeats 4000000 in
theorem locOkay_chunk5 : ((commonLocations.drop 45).take 9).all locOkay = true := by decide

set_option maxRecDepth 1000000 in
set_option maxHeartbeats 4000000 in
theorem locOkay_chunk6 : ((commonLocations.drop 54).take 9).all locOkay = true := by decide

set_option maxRecDepth 1000000 in
set_option maxHeartbeats 4000000 in
theorem locOkay_chunk7 : ((commonLocations.drop 63).take 9).all locOkay = true := by decide

set_option maxRecDepth 1000000 in
set_option maxHeartbeats 4000000 in
theorem locOkay_chunk8 : ((commonLocations.drop 72).take 9).all locOkay = true := by decide

set_option maxRecDepth 1000000 in
set_option maxHeartbeats 4000000 in
theorem locOkay_chunk9 : (commonLocations.drop 81).all locOkay = true := by decide

/-- Every commonLocations entry passes the per-location check. -/
theorem locOkay_all : commonLocations.all locOkay = true := by
  have h8 : (commonLocations.drop 72).all locOkay = true :=
    all_drop_step locOkay_chunk8 locOkay_chunk9
  have h7 : (commonLocations.drop 63).all locOkay = true :=
    all_drop_step locOkay_chunk7 h8
  have h6 : (commonLocations.drop 54).all locOkay = true :=
    all_drop_step locOkay_chunk6 h7
  have h5 : (commonLocations.drop 45).all locOkay = true :=
    all_drop_step locOkay_chunk5 h6
  have h4 : (commonLocations.drop 36).all locOkay = true :=
    all_drop_step locOkay_chunk4 h5
  have h3 : (commonLocations.drop 27).all locOkay = true :=
    all_drop_step locOkay_chunk3 h4
  have h2 : (commonLocations.drop 18).all locOkay = true :=
    all_drop_step locOkay_chunk2 h3
  have h1 : (commonLocations.drop 9).all locOkay = true :=
    all_drop_step locOkay_chunk1 h2
  rw [← List.take_append_drop 9 commonLocations, List.all_append, Bool.and_eq_true]
  exact ⟨locOkay_chunk0, h1⟩

theorem firstIdx_lt_length {l : List String} {x : String} {i : Nat}
    (h : firstIdx l x = some i) : i < l.length := by
  induction l generalizing i with
  | nil => simp [firstIdx] at h
  | cons y ys ih =>
    unfold firstIdx at h
    by_cases hy : (y == x) = true
    · simp only [hy, if_true, Option.some.injEq] at h
      simp only [List.length_cons]; omega
    · simp only [hy, Bool.false_eq_true, if_false] at h
      cases hj : firstIdx ys x with
      | none => rw [hj] at h; simp at h
      | some j =>
        rw [hj] at h
        simp only [Option.map_some', Option.some.injEq] at h
        have := ih hj
        simp only [List.length_cons]
        omega

theorem firstSome_eq_some {α β : Type} {f : α → Option β} {l : List α} {b : β}
    (h : firstSome f l = some b) : ∃ a ∈ l, f a = some b := by
  induction l with
  | nil => simp [firstSome] at h
  | cons x xs ih =>
    unfold firstSome at h
    cases hx : f x with
    | some y =>
      rw [hx] at h
      simp only [] at h
      exact ⟨x, by simp, by rw [hx]; exact h⟩
    | none =>
      rw [hx] at h
      simp only [] at h
      obtain ⟨a, ha, hfa⟩ := ih h
      exact ⟨a, by simp [ha], hfa⟩

theorem comboHit_lt {lower : String} {r l : String × String} {i : Nat}
    (h : comboHit lower r l = some i) : i < TITLE_PRIORITY.length := by
  unfold comboHit at h
  simp only [] at h
  split at h
  · exact absurd h (by simp)
  · rename_i v hv
    split at h
    · cases h
      cases h1 : firstIdx TITLE_PRIORITY (r.1 ++ " " ++ l.1) with
      | some w => rw [h1] at hv; cases hv; exact firstIdx_lt_length h1
      | none => rw [h1] at hv; exact firstIdx_lt_length hv
    · cases h

theorem comboPriority_lt {lower : String} {i : Nat}
    (h : comboPriority lower = some i) : i < TITLE_PRIORITY.length := by
  obtain ⟨p, _, hp⟩ := firstSome_eq_some h
  exact comboHit_lt hp

theorem vpPriority_lt {lower : String} {i : Nat}
    (h : vpPriority lower = some i) : i < TITLE_PRIORITY.length := by
  unfold vpPriority at h
  split at h
  · exact List.mem_range.mp (List.mem_of_find?_eq_some h)
  · cases h

theorem substrPriority_le (lower : String) :
    substrPriority lower ≤ TITLE_PRIORITY.length + 1 := by
  unfold substrPriority
  split
  · rename_i i hi
    have := List.mem_range.mp (List.mem_of_find?_eq_some hi)
    omega
  · omega

/-- getTitlePriority never exceeds the sentinel rank. -/
theorem getTitlePriority_le (title : String) :
    getTitlePriority title ≤ TITLE_PRIORITY.length + 1 := by
  unfold getTitlePriority
  split
  · omega
  · simp only []
    split
    · rename_i i hi
      have := firstIdx_lt_length hi
      omega
    · split
      · rename_i i hi
        have := comboPriority_lt hi
        omega
      · split
        · rename_i i hi
          have := vpPriority_lt hi
          omega
        · exact substrPriority_le _

/-- Every TITLE_PRIORITY entry is nonempty and already lower-case. -/
theorem title_entries_ok :
    ∀ t ∈ TITLE_PRIORITY, (t == "") = false ∧ jsLower t = t := by decide

/-- On an entry of the priority list whose first occurrence is at its own
index, getTitlePriority is the exact-match index. -/
theorem getTitlePriority_exact (i : Nat) (hi : i < TITLE_PRIORITY.length)
    (hfi : firstIdx TITLE_PRIORITY (TITLE_PRIORITY.get ⟨i, hi⟩) = some i) :
    getTitlePriority (TITLE_PRIORITY.get ⟨i, hi⟩) = i := by
  obtain ⟨h1, h2⟩ :=
    title_entries_ok (TITLE_PRIORITY.get ⟨i, hi⟩) (TITLE_PRIORITY.get_mem i hi)
  unfold getTitlePriority
  rw [h2] at *
  simp only [h1, Bool.false_eq_true, if_false, hfi]

/-- The character filter of the implementation is the spec's character set
plus the underscore. -/
theorem jsKeepChar_eq (c : Char) : jsKeepChar c = (specAllowedChar c || c == '_') := by
  simp only [jsKeepChar, specAllowedChar, wordChar, asciiAlphanum, asciiLetter]
  cases h1 : ('a' ≤ c && c ≤ 'z') <;> cases h2 : ('A' ≤ c && c ≤ 'Z') <;>
    cases h3 : ('0' ≤ c && c ≤ '9') <;> cases h4 : (c == '_') <;>
    cases h5 : jsWs c <;> simp

/-- A contact with a present address and a non-blank title scores at most the
sentinel title rank. -/
theorem calculateEmailScore_titled_le {e : RawEmail}
    (h1 : e.value ≠ "")
    (ht : jsTrim (jsOrS e.position e.position_raw) ≠ "") :
    calculateEmailScore e ≤ (TITLE_PRIORITY.length : Rat) + 1 := by
  unfold calculateEmailScore
  have hv : (e.value == "") = false := by simpa using h1
  simp only [hv, Bool.false_eq_true, if_false]
  have htitle : (jsOrS e.position e.position_raw != "") = true := by
    by_cases h : jsOrS e.position e.position_raw = ""
    · exfalso; apply ht; rw [h]; rfl
    · simpa using h
  have htrim : (jsTrim (jsOrS e.position e.position_raw) != "") = true := by
    simpa using ht
  simp only [htitle, htrim, Bool.and_self, if_true]
  have := getTitlePriority_le (jsOrS e.position e.position_raw)
  have hcast : (getTitlePriority (jsOrS e.position e.position_raw) : Rat) ≤
      ((TITLE_PRIORITY.length + 1 : Nat) : Rat) := by
    exact_mod_cast this
  push_cast at hcast
  linarith

/-- A contact with no (non-blank) title scores at least 225 when its reported
confidence is in [0, 100]. -/
theorem calculateEmailScore_untitled_ge {e : RawEmail}
    (hu : jsTrim (jsOrS e.position e.position_raw) = "")
    (hc : ∀ c ∈ e.confidence, 0 ≤ c ∧ c ≤ 100) :
    (225 : Rat) ≤ calculateEmailScore e := by
  unfold calculateEmailScore
  by_cases hv : (e.value == "") = true
  · simp only [hv, if_true]; norm_num
  · simp only [hv, Bool.false_eq_true, if_false]
    have htrim : (jsTrim (jsOrS e.position e.position_raw) != "") = false := by
      simp [hu]
    simp only [htrim, Bool.and_false, Bool.false_eq_true, if_false]
    cases hco : e.confidence with
    | none =>
      simp only [hco]
      by_cases hg : isGenericEmail e.value = true <;>
        by_cases hn : (e.first_name != "" || e.last_name != "") = true <;>
        by_cases hty : (e.type != "") = true <;>
        by_cases hp : (e.type == "personal") = true <;>
        by_cases hge : (e.type == "generic") = true <;>
        simp only [hg, hn, hty, hp, hge, Bool.false_eq_true, if_true, if_false] <;>
        norm_num
    | some c =>
      obtain ⟨hc0, hc100⟩ := hc c (by simp [hco])
      simp only [hco]
      by_cases hg : isGenericEmail e.value = true <;>
        by_cases hn : (e.first_name != "" || e.last_name != "") = true <;>
        by_cases hty : (e.type != "") = true <;>
        by_cases hp : (e.type == "personal") = true <;>
        by_cases hge : (e.type == "generic") = true <;>
        simp only [hg, hn, hty, hp, hge, Bool.false_eq_true, if_true, if_false] <;>
        linarith

/-- addEmailsFrom preserves the dedup invariant. -/
theorem addEmailsFrom_inv (src : String) (es : List Contact) :
    ∀ seen out, MergeInvP seen out →
      MergeInvP (addEmailsFrom src seen out es).1 (addEmailsFrom src seen out es).2 := by
  induction es with
  | nil => intro seen out h; exact h
  | cons e rest ih =>
    rintro seen out ⟨h1, h2⟩
    unfold addEmailsFrom
    by_cases hk : seen.contains (jsLower e.email) = true
    · simp only [hk, if_true]
      exact ih seen out ⟨h1, h2⟩
    · simp only [hk, Bool.false_eq_true, if_false]
      apply ih
      constructor
      · intro c hc
        rcases List.mem_append.mp hc with hcl | hcr
        · have := h1 c hcl
          rw [List.contains_eq_any_beq] at this ⊢
          simp only [List.any_append, this, Bool.true_or]
        · have : c = { e with source := src } := by simpa using hcr
          subst this
          rw [List.contains_eq_any_beq]
          simp
      · rw [List.pairwise_append]
        refine ⟨h2, by simp, ?_⟩
        intro a ha b hb
        have hb' : b = { e with source := src } := by simpa using hb
        subst hb'
        have hak := h1 a ha
        intro heq
        apply hk
        show seen.contains (jsLower e.email) = true
        have : jsLower ({ e with source := src } : Contact).email = jsLower e.email := rfl
        rw [← this, ← heq]
        exact hak

/-- The main merge fold preserves the dedup invariant. -/
theorem mergePass_inv (rs : List SourceResult) :
    ∀ acc : List String × List Contact × Nat × String,
      MergeInvP acc.1 acc.2.1 →
      MergeInvP (rs.foldl mergePass acc).1 (rs.foldl mergePass acc).2.1 := by
  induction rs with
  | nil => intro acc h; exact h
  | cons r rest ih =>
    intro acc h
    exact ih _ (addEmailsFrom_inv r.source r.data.emails acc.1 acc.2.1 h)

/-- The second variant's merge fold preserves the dedup invariant. -/
theorem mergePass2_inv (rs : List CompanyInfo) :
    ∀ acc : List String × List String × (List String × List Contact) × Nat × String,
      MergeInvP acc.2.2.1.1 acc.2.2.1.2 →
      MergeInvP (rs.foldl mergePass2 acc).2.2.1.1 (rs.foldl mergePass2 acc).2.2.1.2 := by
  induction rs with
  | nil => intro acc h; exact h
  | cons r rest ih =>
    intro acc h
    exact ih _ (addEmailsFrom_inv (jsOrS r.source "unknown_source")
      (r.emails.filter (fun e => e.email != "")) acc.2.2.1.1 acc.2.2.1.2 h)

/-- Sorting contacts preserves pairwise distinctness of lower-cased addresses. -/
theorem pairwise_emailNe_insertionSort {r : Contact → Contact → Prop}
    [DecidableRel r] {l : List Contact}
    (h : l.Pairwise (fun a b => jsLower a.email ≠ jsLower b.email)) :
    (l.insertionSort r).Pairwise (fun a b => jsLower a.email ≠ jsLower b.email) :=
  ((List.perm_insertionSort r l).pairwise_iff (fun {_x _y} hx => Ne.symm hx)).mpr h

/-! ## Claim theorems -/

/-- C1 (code_bug): the spec invariant says a ParsedCompany with status
Excluded or Unknown never reaches the enrichment API call.  The skip guard of
getCompanyInfoWithSource checks only for "" / "Unknown" / names starting with
"Excluded:"; the bare sentinel "Excluded" — exactly what the parser returns
for an exact-exclusion match such as raw company text "Compass" — passes both
the skip guard and the exclusion re-check (the literal string "excluded" is
not in the exclusion lists), so a Hunter API request is issued with search
term "Excluded".  The trace component below records the terms sent to the
API; the last two conjuncts show the Unknown and partial-exclusion sentinels
are, by contrast, correctly skipped. -/
theorem excluded_sentinel_reaches_api :
    parseCompanyAndLocation "Compass" = "Excluded" ∧
    skipGuard "Excluded" = false ∧
    exclGuard "Excluded" = false ∧
    (getCompanyInfoWithSource (fun _ => ApiOutcome.fail (some 500))
        "Excluded" "" "company").2 = ["Excluded"] ∧
    (getCompanyInfoWithSource (fun _ => ApiOutcome.fail (some 500))
        "Unknown" "" "company").2 = [] ∧
    (getCompanyInfoWithSource (fun _ => ApiOutcome.fail (some 500))
        "Excluded: whole foods" "" "company").2 = [] := by
  refine ⟨by decide, by decide, by decide, by decide, by decide, by decide⟩

/-- C2 (confirmed): for every collection of per-strategy enrichment results
fed into either variant's merge step, the merged contact list contains no two
entries whose email addresses are equal after lower-casing (first-writer-wins
dedup keyed by the lower-cased address, preserved by the final
priority sort). -/
theorem merge_emails_nodup (allResults : List SourceResult)
    (domOf : String → Option String) (allResults2 : List CompanyInfo) :
    (getCompanyInfoMerge allResults).emails.Pairwise
      (fun a b => jsLower a.email ≠ jsLower b.email) ∧
    (getCompanyInfoMerge2 domOf allResults2).emails.Pairwise
      (fun a b => jsLower a.email ≠ jsLower b.email) := by
  constructor
  · unfold getCompanyInfoMerge
    simp only []
    exact pairwise_emailNe_insertionSort
      (mergePass_inv _ ([], [], 0, "N/A") ⟨by simp, by simp⟩).2
  · unfold getCompanyInfoMerge2
    simp only []
    set m := (allResults2.insertionSort domainFirstLe).foldl mergePass2
      ([], [], ([], []), 0, "N/A") with hm
    have hbase := mergePass2_inv (allResults2.insertionSort domainFirstLe)
      ([], [], ([], []), 0, "N/A") ⟨by simp, by simp⟩
    rw [← hm] at hbase
    have hpw := hbase.2
    apply pairwise_emailNe_insertionSort
    split <;>
    · rw [List.pairwise_map]
      exact hpw

set_option maxRecDepth 200000 in
/-- C3 (corrected): the raw company text "MARCUS SAMUELSSON RESTAURANT GROUP"
is preserved intact as a resolved company name — but in its original all-caps
form, not title-cased to "Marcus Samuelsson Restaurant Group" as the claim
states (the all-caps pattern branch keeps the name "as is"). -/
theorem parse_marcus_counterexample :
    parseCompanyAndLocation "MARCUS SAMUELSSON RESTAURANT GROUP" ≠
      "Marcus Samuelsson Restaurant Group" := by decide

set_option maxRecDepth 200000 in
/-- C3 (corrected, amended): parseCompanyAndLocation on
"MARCUS SAMUELSSON RESTAURANT GROUP" returns the whole input intact (a
Resolved name: not "Unknown", not an exclusion sentinel), and in particular
does not strip it down to "Restaurant Group". -/
theorem parse_marcus_preserved :
    parseCompanyAndLocation "MARCUS SAMUELSSON RESTAURANT GROUP" =
      "MARCUS SAMUELSSON RESTAURANT GROUP" ∧
    ("MARCUS SAMUELSSON RESTAURANT GROUP" : String) ≠ "Restaurant Group" ∧
    ("MARCUS SAMUELSSON RESTAURANT GROUP" : String) ≠ "Unknown" ∧
    jsStartsWith "MARCUS SAMUELSSON RESTAURANT GROUP" "Excluded" = false := by
  refine ⟨by decide, by decide, by decide, by decide⟩

set_option maxRecDepth 200000 in
/-- C4 (corrected): two commonLocations entries do not parse to "Unknown":
"Washington" is also on the EXCLUDED_COMPANIES list, so the parser's earlier
exclusion stage returns "Excluded"; and "Denver" is rewritten by the
venue-word spacing heuristic (regex alternative `den` followed by letters) to
"Den ver", which survives final classification as a resolved name. -/
theorem parse_location_only_counterexample :
    "Washington" ∈ commonLocations ∧
    parseCompanyAndLocation "Washington" = "Excluded" ∧
    "Denver" ∈ commonLocations ∧
    parseCompanyAndLocation "Denver" = "Den ver" ∧
    ("Excluded" : String) ≠ "Unknown" ∧ ("Den ver" : String) ≠ "Unknown" := by
  refine ⟨by decide, by decide, by decide, by decide, by decide, by decide⟩

/-- C4 (corrected, amended): every raw company string that is exactly one of
the parser's recognized place names parses to the sentinel "Unknown", except
the two entries "Washington" (excluded) and "Denver" (split to "Den ver"). -/
theorem parse_location_only_unknown :
    ∀ loc ∈ commonLocations, loc ≠ "Washington" → loc ≠ "Denver" →
      parseCompanyAndLocation loc = "Unknown" := by
  intro loc hmem h1 h2
  have h3 := List.all_eq_true.mp locOkay_all loc hmem
  simp only [locOkay, Bool.or_eq_true, beq_iff_eq] at h3
  tauto

/-- C4 witness: the amended statement applied to the place name "Chicago". -/
theorem parse_location_only_witness :
    parseCompanyAndLocation "Chicago" = "Unknown" :=
  parse_location_only_unknown "Chicago" (by decide) (by decide) (by decide)

set_option maxRecDepth 200000 in
set_option maxHeartbeats 2000000 in
/-- C5 (code_bug): the spec says the Domain Discovery Client must not be
called for excluded or unknown company names.  The second variant's
orchestrator filters only names that are falsy or start with "Excluded"; the
sentinel "Unknown" (here produced by parsing the location-only raw text
"New York") passes the guard, so getWebsiteUrlFromGoogle is invoked with the
literal company name "Unknown".  The last conjunct shows that excluded names
are, by contrast, correctly kept from Google. -/
theorem unknown_sent_to_google :
    parseCompanyAndLocation2 "New York" = "Unknown" ∧
    googleSearchTerms "New York" none = ["Unknown"] ∧
    parseCompanyAndLocation2 "Unknown" = "Unknown" ∧
    googleSearchTerms "Whole FoodsAustin" none = [] := by
  refine ⟨by decide, by decide, by decide, by decide⟩

/-- C6 (corrected, amended): the enrichment lookup never throws — it is a
total function of the API oracle — and on an API failure (timeout, HTTP
error, malformed body) it returns the empty-result failure shape, which flags
the failure in the `linkedin` field ("Error") while passing the source tag
through unchanged; except that a "company"-mode lookup with a distinct
nonempty location retries exactly once with the location-derived term under
the tag "location" before returning that failure shape (the trace of API
calls never exceeds two). -/
theorem getCompanyInfoWithSource_error_contract
    (api : String → ApiOutcome) (companyName locationName source : String)
    (hs : skipGuard companyName = false)
    (he : exclGuard companyName = false)
    (hf : (api (searchTermOf companyName)).isFail = true) :
    (¬(source = "company" ∧ locationName ≠ "" ∧ locationName ≠ companyName) →
      getCompanyInfoWithSource api companyName locationName source =
        (errShape source, [searchTermOf companyName])) ∧
    ((source = "company" ∧ locationName ≠ "" ∧ locationName ≠ companyName) →
      skipGuard locationName = false → exclGuard locationName = false →
      (api (searchTermOf locationName)).isFail = true →
      getCompanyInfoWithSource api companyName locationName source =
        (errShape "location", [searchTermOf companyName, searchTermOf locationName])) ∧
    (getCompanyInfoWithSource api companyName locationName source).2.length ≤ 2 := by
  have honce : lookupOnce api companyName source = .apiError [searchTermOf companyName] := by
    unfold lookupOnce
    simp only [hs, Bool.false_eq_true, if_false, he]
    cases hapi : api (searchTermOf companyName) with
    | ok d =>
      cases d with
      | some dd => rw [hapi] at hf; simp [ApiOutcome.isFail] at hf
      | none => rfl
    | fail st => rfl
  have hcond : (source == "company" && locationName != "" && locationName != companyName) =
      decide (source = "company" ∧ locationName ≠ "" ∧ locationName ≠ companyName) := by
    by_cases h1 : source = "company" <;> by_cases h2 : locationName = "" <;>
      by_cases h3 : locationName = companyName <;>
      simp [h1, h2, h3]
  refine ⟨?_, ?_, ?_⟩
  · intro hnot
    unfold getCompanyInfoWithSource
    rw [honce]
    simp only [hcond, decide_eq_true_eq]
    rw [if_neg hnot]
  · rintro hyes hs2 he2 hf2
    unfold getCompanyInfoWithSource
    rw [honce]
    simp only [hcond, decide_eq_true_eq]
    rw [if_pos hyes]
    have honce2 : lookupOnce api locationName "location" =
        .apiError [searchTermOf locationName] := by
      unfold lookupOnce
      simp only [hs2, Bool.false_eq_true, if_false, he2]
      cases hapi : api (searchTermOf locationName) with
      | ok d =>
        cases d with
        | some dd => rw [hapi] at hf2; simp [ApiOutcome.isFail] at hf2
        | none => rfl
      | fail st => rfl
    rw [honce2]
    rfl
  · unfold getCompanyInfoWithSource
    rw [honce]
    simp only [hcond, decide_eq_true_eq]
    by_cases hc : (source = "company" ∧ locationName ≠ "" ∧ locationName ≠ companyName)
    · rw [if_pos hc]
      cases h2 : lookupOnce api locationName "location" with
      | result r tr =>
        have : tr.length ≤ 1 := by
          unfold lookupOnce at h2
          split at h2
          · cases h2; simp
          · split at h2
            · cases h2; simp
            · simp only [] at h2
              split at h2 <;> first | (cases h2; simp) | cases h2
        simp only [List.length_append, List.length_cons, List.length_nil]
        omega
      | apiError tr =>
        have : tr.length ≤ 1 := by
          unfold lookupOnce at h2
          split at h2
          · cases h2
          · split at h2
            · cases h2
            · simp only [] at h2
              split at h2 <;> first | (cases h2; simp) | (cases h2)
        simp only [List.length_append, List.length_cons, List.length_nil]
        omega
    · rw [if_neg hc]; simp

/-- C6 witness: the contract applied to a concrete always-failing API with
company "Testco", location "Brooklyn", source "company". -/
theorem getCompanyInfoWithSource_error_contract_witness :
    (¬("company" = "company" ∧ ("Brooklyn" : String) ≠ "" ∧
        ("Brooklyn" : String) ≠ "Testco") →
      getCompanyInfoWithSource (fun _ => ApiOutcome.fail (some 500))
          "Testco" "Brooklyn" "company" =
        (errShape "company", [searchTermOf "Testco"])) ∧
    (("company" = "company" ∧ ("Brooklyn" : String) ≠ "" ∧
        ("Brooklyn" : String) ≠ "Testco") →
      skipGuard "Brooklyn" = false → exclGuard "Brooklyn" = false →
      ((fun _ => ApiOutcome.fail (some 500)) (searchTermOf "Brooklyn")).isFail = true →
      getCompanyInfoWithSource (fun _ => ApiOutcome.fail (some 500))
          "Testco" "Brooklyn" "company" =
        (errShape "location", [searchTermOf "Testco", searchTermOf "Brooklyn"])) ∧
    (getCompanyInfoWithSource (fun _ => ApiOutcome.fail (some 500))
        "Testco" "Brooklyn" "company").2.length ≤ 2 :=
  getCompanyInfoWithSource_error_contract (fun _ => ApiOutcome.fail (some 500))
    "Testco" "Brooklyn" "company" (by decide) (by decide) (by decide)

/-- C6 counterexample: the claim says the failure shape's source field
reflects the failure; in fact the source tag is returned unchanged — it is
identical on failure and on success ("company" both times) — and the failure
is recorded in the linkedin field instead ("Error" vs "N/A"). -/
theorem error_not_reflected_in_source :
    (getCompanyInfoWithSource (fun _ => ApiOutcome.fail (some 500))
        "Testco" "" "company").1.source = "company" ∧
    (getCompanyInfoWithSource (fun _ => ApiOutcome.ok (some {}))
        "Testco" "" "company").1.source = "company" ∧
    (getCompanyInfoWithSource (fun _ => ApiOutcome.fail (some 500))
        "Testco" "" "company").1.linkedin = "Error" ∧
    (getCompanyInfoWithSource (fun _ => ApiOutcome.ok (some {}))
        "Testco" "" "company").1.linkedin = "N/A" := by
  refine ⟨by decide, by decide, by decide, by decide⟩

/-- C7 (corrected): the claim fails on the duplicated list entry: "coo" and
"chief people officer" are distinct entries at positions 41 and 43, but
"chief people officer" also occurs at position 0, so its exact-match rank is
0, not 43, and the title matching the earlier entry (position 41) does not
get the lower rank. -/
theorem titlePriority_monotone_counterexample :
    TITLE_PRIORITY[41]? = some "coo" ∧
    TITLE_PRIORITY[43]? = some "chief people officer" ∧
    ("coo" : String) ≠ "chief people officer" ∧
    ¬(getTitlePriority "coo" < getTitlePriority "chief people officer") := by
  refine ⟨by decide, by decide, by decide, by decide⟩

/-- C7 (corrected, amended): for two titles that exact-match two distinct
entries of TITLE_PRIORITY, each at the first occurrence of its string, the
title whose entry occurs earlier in the list gets a strictly lower rank.
(The restriction to first occurrences is forced by the duplicated entry
"chief people officer" at positions 0 and 43.) -/
theorem getTitlePriority_exact_monotone (i j : Nat)
    (hi : i < TITLE_PRIORITY.length) (hj : j < TITLE_PRIORITY.length)
    (hij : i < j)
    (hfi : firstIdx TITLE_PRIORITY (TITLE_PRIORITY.get ⟨i, hi⟩) = some i)
    (hfj : firstIdx TITLE_PRIORITY (TITLE_PRIORITY.get ⟨j, hj⟩) = some j) :
    getTitlePriority (TITLE_PRIORITY.get ⟨i, hi⟩) <
      getTitlePriority (TITLE_PRIORITY.get ⟨j, hj⟩) := by
  rw [getTitlePriority_exact i hi hfi, getTitlePriority_exact j hj hfj]
  exact hij

/-- C7 witness: the amended statement applied to entries 1 and 2
("chief human resources officer" and "chro"). -/
theorem getTitlePriority_exact_monotone_witness :
    getTitlePriority (TITLE_PRIORITY.get ⟨1, by decide⟩) <
      getTitlePriority (TITLE_PRIORITY.get ⟨2, by decide⟩) :=
  getTitlePriority_exact_monotone 1 2 (by decide) (by decide) (by decide)
    (by decide) (by decide)

/-- C8 (corrected): the normalizer keeps the underscore, which is neither
alphanumeric, nor whitespace, nor one of `. , & ' -` — the regex class `\w`
includes `_`, so the claim's character set is off by one character. -/
theorem cleanSpecialCharacters_counterexample :
    cleanSpecialCharacters "_" = "_" ∧ specAllowedChar '_' = false := by
  refine ⟨by decide, by decide⟩

/-- C8 (corrected, amended): cleanSpecialCharacters is a total pure function
— undefined and empty input both yield the empty string — and for every
input it keeps exactly the characters of the spec's set (alphanumeric,
whitespace, `. , & ' -`) plus the underscore, removing every other
character. -/
theorem cleanSpecialCharacters_total_filter :
    cleanSpecialCharactersOpt none = "" ∧ cleanSpecialCharacters "" = "" ∧
    ∀ s : String, (cleanSpecialCharacters s).data =
      s.data.filter (fun c => specAllowedChar c || c == '_') := by
  refine ⟨rfl, rfl, fun s => ?_⟩
  unfold cleanSpecialCharacters
  by_cases h : s = ""
  · subst h; simp
  · have : (s == "") = false := by simpa using h
    simp only [this, Bool.false_eq_true, if_false]
    exact List.filter_congr (fun c _ => jsKeepChar_eq c)

set_option maxRecDepth 400000 in
set_option maxHeartbeats 4000000 in
/-- C9 (corrected): parse is not idempotent on its own Resolved output:
"Executive Chef Morning Star Restaurant" resolves to "Morning Star" (a
Resolved name: not "Unknown", no exclusion sentinel), but re-parsing
"Morning Star" strips the job-title-like prefix "morning" and yields
"Star". -/
theorem parse_idempotent_counterexample :
    parseCompanyAndLocation "Executive Chef Morning Star Restaurant" = "Morning Star" ∧
    parseCompanyAndLocation "Morning Star" = "Star" ∧
    ("Morning Star" : String) ≠ "Unknown" ∧
    jsStartsWith "Morning Star" "Excluded" = false ∧
    ("Star" : String) ≠ "Morning Star" := by
  refine ⟨by decide, by decide, by decide, by decide, by decide⟩

set_option maxRecDepth 400000 in
set_option maxHeartbeats 8000000 in
/-- C9 (corrected, amended): parse is idempotent on its own Resolved output
for representative fixtures (as the spec's testable property is scoped); it
is not idempotent in general (see the counterexample). -/
theorem parse_idempotent_on_fixtures :
    (["MARCUS SAMUELSSON RESTAURANT GROUP", "Joe's Pizza, New York",
      "Blue Hill Fine Dining"].all (fun x =>
        parseCompanyAndLocation x != "Unknown" &&
        !jsStartsWith (parseCompanyAndLocation x) "Excluded" &&
        parseCompanyAndLocation (parseCompanyAndLocation x) ==
          parseCompanyAndLocation x)) = true := by decide

/-- C10 (corrected): calculateEmailScore checks the email's `value` before
the title, so a titled contact whose address is missing scores 1000 — higher
(worse) than an untitled contact with an address — contradicting the claim's
unconditional "titled scores strictly lower". -/
theorem titled_beats_untitled_counterexample :
    jsOrS ({ position := "ceo", confidence := some 50 : RawEmail }).position
        ({ position := "ceo", confidence := some 50 : RawEmail }).position_raw ≠ "" ∧
    calculateEmailScore { position := "ceo", confidence := some 50 } = 1000 ∧
    jsTrim (jsOrS ({ value := "a@b.c", confidence := some 50 : RawEmail }).position
        ({ value := "a@b.c", confidence := some 50 : RawEmail }).position_raw) = "" ∧
    calculateEmailScore { value := "a@b.c", confidence := some 50 } = 425 ∧
    ¬(calculateEmailScore { position := "ceo", confidence := some 50 } <
        calculateEmailScore { value := "a@b.c", confidence := some 50 }) := by
  have hg : isGenericEmail "a@b.c" = false := by decide
  have h1000 : calculateEmailScore { position := "ceo", confidence := some 50 } = 1000 := by
    unfold calculateEmailScore
    simp
  have h425 : calculateEmailScore { value := "a@b.c", confidence := some 50 } = 425 := by
    unfold calculateEmailScore
    simp [hg, jsOrS, jsTrim]
    norm_num
  refine ⟨by decide, h1000, by decide, h425, ?_⟩
  rw [h1000, h425]
  norm_num

/-- C10 (corrected, amended): for two raw contact records with confidences in
[0, 100], where the titled one also carries an email address (`value`
present), the titled contact scores at most TITLE_PRIORITY.length + 1 = 77,
the untitled one scores at least 225, and so the titled contact scores
strictly lower and sorts first. -/
theorem calculateEmailScore_titled_beats_untitled (e1 e2 : RawEmail)
    (h1 : e1.value ≠ "")
    (ht : jsTrim (jsOrS e1.position e1.position_raw) ≠ "")
    (hu : jsTrim (jsOrS e2.position e2.position_raw) = "")
    (_hc1 : ∀ c ∈ e1.confidence, 0 ≤ c ∧ c ≤ 100)
    (hc2 : ∀ c ∈ e2.confidence, 0 ≤ c ∧ c ≤ 100) :
    calculateEmailScore e1 ≤ (TITLE_PRIORITY.length : Rat) + 1 ∧
    (225 : Rat) ≤ calculateEmailScore e2 ∧
    calculateEmailScore e1 < calculateEmailScore e2 := by
  have ha := calculateEmailScore_titled_le h1 ht
  have hb := calculateEmailScore_untitled_ge hu hc2
  refine ⟨ha, hb, ?_⟩
  have hlen : (TITLE_PRIORITY.length : Rat) = 76 := by norm_num [TITLE_PRIORITY]
  rw [hlen] at ha
  linarith

/-- C10 witness: the amended statement applied to a titled CEO contact and an
untitled contact, both with addresses and no reported confidence. -/
theorem calculateEmailScore_titled_beats_untitled_witness :
    calculateEmailScore { value := "x@y.z", position := "ceo" } ≤
        (TITLE_PRIORITY.length : Rat) + 1 ∧
      (225 : Rat) ≤ calculateEmailScore { value := "a@b.c" } ∧
      calculateEmailScore { value := "x@y.z", position := "ceo" } <
        calculateEmailScore { value := "a@b.c" } :=
  calculateEmailScore_titled_beats_untitled _ _ (by decide) (by decide) (by decide)
    (by intro c hc; simp at hc) (by intro c hc; simp at hc)

end CulinaryScraper
